import Mathlib

/-!
Verification of the DevConnect backend's real-time and caching subsystems.

The definitions below are a shallow embedding of the TypeScript sources:
`src/shared/utils/cache.ts` (CacheService, CacheKeys),
`src/modules/posts/post.service.ts` (PostService),
`src/modules/chat/chat.service.ts`, `src/socket/chatHandlers.ts`,
`src/socket/socket.ts`, `src/socket/pubsub.ts`,
`src/modules/presence/presence.service.ts`, and
`src/modules/notifications/notification.service.ts`.

Asynchronous store/cache/bus calls are modelled as explicit state passing;
fallible operations return `Except`.  A boolean `fail` flag on the backend
state models "the backend raises on every operation", which is how the
sources' try/catch behaviour is exercised.
-/

namespace DevConnect

/-! ## String primitives

Lean's built-in `String.trim`/`String.startsWith` are implemented on byte
positions and do not reduce in the kernel, so the JS string operations used
by the sources are modelled directly on the underlying character lists. -/

/-- JS `String.prototype.trim` whitespace class (the characters that actually
occur in this code base). -/
def isWS (c : Char) : Bool := c == ' ' || c == '\t' || c == '\n' || c == '\r'

/-- Drop whitespace from both ends of a character list. -/
def trimChars (l : List Char) : List Char :=
  ((l.dropWhile isWS).reverse.dropWhile isWS).reverse

/-- Model of JS `content.trim()`. -/
def strTrim (s : String) : String := ⟨trimChars s.data⟩

/-- `listStarts p l` is true when `p` is an initial segment of `l`. -/
def listStarts : List Char → List Char → Bool
  | [], _ => true
  | _ :: _, [] => false
  | a :: as, b :: bs => a == b && listStarts as bs

/-- String version of `listStarts` (JS `key.startsWith(pre)`). -/
def strStarts (pre s : String) : Bool := listStarts pre.data s.data

/-- The hexadecimal digits accepted in a MongoDB ObjectId literal. -/
def hexChars : List Char := "0123456789abcdefABCDEF".data

/-- Model of `mongoose.Types.ObjectId.isValid`: a 24-character hex string
(or a 12-character arbitrary string, which mongoose also accepts). -/
def isValidObjectId (s : String) : Bool :=
  (s.data.length == 24 && s.data.all (fun c => hexChars.contains c)) || s.data.length == 12

/-! ## Cache service (`src/shared/utils/cache.ts`) -/

/-- One cached entry: key, stored (serialized) value, and the TTL it was set
with (`None` when `set` was called without a TTL). -/
structure CacheEntry (α : Type) where
  key : String
  value : α
  ttl : Option Nat
deriving DecidableEq

/-- The Redis cache backend: `fail = true` models a backend on which every
client call raises (connection refused etc.); `entries` is the keyspace. -/
structure CacheB (α : Type) where
  fail : Bool
  entries : List (CacheEntry α)
deriving DecidableEq

/-- Raw keyspace lookup (`client.get`). -/
def lookupCache (c : CacheB α) (k : String) : Option α :=
  match c.entries.find? (fun e => e.key == k) with
  | some e => some e.value
  | none => none

/-- Raw `client.get`, raising when the backend is down. -/
def clientGet (c : CacheB α) (k : String) : Except String (Option α) :=
  if c.fail then .error "Redis error" else .ok (lookupCache c k)

/-- Raw `client.set`/`client.setEx`, raising when the backend is down.
Setting replaces any previous entry under the same key. -/
def clientSet (c : CacheB α) (k : String) (v : α) (ttl : Option Nat) :
    Except String (CacheB α) :=
  if c.fail then .error "Redis error"
  else .ok { c with entries :=
    (c.entries.filter (fun e => (e.key == k) = false)) ++ [⟨k, v, ttl⟩] }

/-- Raw `client.del`, raising when the backend is down. -/
def clientDel (c : CacheB α) (k : String) : Except String (CacheB α) :=
  if c.fail then .error "Redis error"
  else .ok { c with entries := c.entries.filter (fun e => (e.key == k) = false) }

/-- `CacheService.get`: returns the cached value, or `none` on a missing key
or on ANY backend error (the catch block logs and returns `null`). -/
def cacheGet (c : CacheB α) (k : String) : Option α :=
  match clientGet c k with
  | .error _ => none
  | .ok v => v

/-- `CacheService.set`: stores the value; backend errors are caught and
logged, leaving the cache unchanged (the function never raises). -/
def cacheSet (c : CacheB α) (k : String) (v : α) (ttl : Option Nat) : CacheB α :=
  match clientSet c k v ttl with
  | .error _ => c
  | .ok c1 => c1

/-- `CacheService.delete`: removes the key; backend errors are caught and
logged, leaving the cache unchanged (the function never raises). -/
def cacheDelete (c : CacheB α) (k : String) : CacheB α :=
  match clientDel c k with
  | .error _ => c
  | .ok c1 => c1

/-- Redis glob match for the patterns this code base uses: a literal ending
in `*` matches keys extending that literal; anything else matches exactly. -/
def matchPat (pat key : String) : Bool :=
  if pat.data.getLast? == some '*' then listStarts pat.data.dropLast key.data
  else pat == key

/-- `CacheService.invalidatePattern`: SCAN for keys matching the pattern and
delete them; deleting nothing (no match) is a success, and backend errors
are caught and logged (the function never raises). -/
def invalidatePattern (c : CacheB α) (pat : String) : CacheB α :=
  if c.fail then c
  else
    let keys := (c.entries.filter (fun e => matchPat pat e.key)).map (fun e => e.key)
    if keys.length > 0 then
      { c with entries := c.entries.filter (fun e => (matchPat pat e.key) = false) }
    else c

/-! ### Cache keys (`CacheKeys` / `CachePrefix` / `CacheTTL`) -/

/-- `CacheTTL.POSTS` (seconds). -/
def ttlPOSTS : Nat := 2 * 60

/-- `CacheTTL.SEARCH` (seconds). -/
def ttlSEARCH : Nat := 1 * 60

/-- Join key parts with `:` (JS `parts.join(':')`). -/
def joinColon : List String → String
  | [] => ""
  | [s] => s
  | s :: rest => s ++ ":" ++ joinColon rest

/-- Join with `,` (JS `arr.join(',')`). -/
def joinComma : List String → String
  | [] => ""
  | [s] => s
  | s :: rest => s ++ "," ++ joinComma rest

/-- Lexicographic comparison on code points (JS default array sort order). -/
def listCharLe : List Char → List Char → Bool
  | [], _ => true
  | _ :: _, [] => false
  | a :: as, b :: bs =>
    if a.toNat < b.toNat then true
    else if b.toNat < a.toNat then false
    else listCharLe as bs

/-- JS `tags.sort()` (lexicographic string sort). -/
def sortStrings (l : List String) : List String :=
  l.insertionSort (fun a b => listCharLe a.data b.data = true)

/-- `CacheKeys.post(postId)`. -/
def cacheKeyPost (postId : String) : String := "post" ++ ":" ++ postId

/-- Filters accepted by `PostService.listPosts` / `searchPosts`. -/
structure PostFilters where
  author : Option String
  tags : List String
  status : Option String
deriving DecidableEq

/-- `CacheKeys.postList(filters)` with page and limit already defaulted. -/
def cacheKeyPostList (f : PostFilters) (page limit : Nat) : String :=
  joinColon (["post:list"]
    ++ (match f.author with | some a => ["author:" ++ a] | none => [])
    ++ (if f.tags.length > 0 then ["tags:" ++ joinComma (sortStrings f.tags)] else [])
    ++ (match f.status with | some s => ["status:" ++ s] | none => [])
    ++ ["page:" ++ toString page]
    ++ ["limit:" ++ toString limit])

/-- The sort orders accepted by `PostService.searchPosts`. -/
inductive SearchSort where
  | date
  | popularity
  | relevance
deriving DecidableEq

/-- String form of a search sort, as used in the cache key. -/
def searchSortStr : SearchSort → String
  | .date => "date"
  | .popularity => "popularity"
  | .relevance => "relevance"

/-- `CacheKeys.search(query, filters, sortBy, page)` (no limit part, as in
the source). -/
def cacheKeySearch (q : String) (f : PostFilters) (sb : SearchSort) (page : Nat) : String :=
  joinColon (["search", "q:" ++ q]
    ++ (if f.tags.length > 0 then ["tags:" ++ joinComma (sortStrings f.tags)] else [])
    ++ (match f.author with | some a => ["author:" ++ a] | none => [])
    ++ ["sort:" ++ searchSortStr sb]
    ++ ["page:" ++ toString page])

/-- `CacheKeys.postListPattern()`. -/
def postListPattern : String := "post:list" ++ "*"

/-- `CacheKeys.searchPattern()`. -/
def searchPattern : String := "search" ++ "*"

/-! ## Post store (`post.model.ts`, `comment.model.ts`) and
`PostService` (`post.service.ts`) -/

/-- A persisted post document.  ObjectId references are modelled as their
string form; ObjectId equality is string equality. -/
structure PostRec where
  id : String
  author : String
  title : String
  content : String
  tags : List String
  status : String
  likes : List String
  bookmarks : List String
  viewCount : Nat
  commentCount : Nat
  createdAt : Nat
deriving DecidableEq

/-- A persisted comment document. -/
structure CommentRec where
  id : String
  author : String
  post : String
  content : String
  parentComment : Option String
  createdAt : Nat
deriving DecidableEq

/-- The paginated result shape returned by `listPosts`/`searchPosts`. -/
structure PagedPosts where
  posts : List PostRec
  total : Nat
  page : Nat
  totalPages : Nat
  hasMore : Bool
deriving DecidableEq

/-- What the posts module serializes into the cache: either a single post
snapshot (under a `post:<id>` key) or a paginated result (under a
`post:list:...` or `search:...` key). -/
inductive CachedVal where
  | post : PostRec → CachedVal
  | paged : PagedPosts → CachedVal
deriving DecidableEq

/-- The state the `PostService` operates on: the persistent store (posts and
comments collections) plus the shared cache. -/
structure PState where
  posts : List PostRec
  comments : List CommentRec
  cache : CacheB CachedVal
deriving DecidableEq

/-- `Post.findById`. -/
def findPost (l : List PostRec) (pid : String) : Option PostRec :=
  l.find? (fun p => p.id == pid)

/-- `Post.findByIdAndUpdate` / `post.save()`: rewrite the document(s) with
the given id. -/
def updatePost (l : List PostRec) (pid : String) (f : PostRec → PostRec) : List PostRec :=
  l.map (fun p => if p.id == pid then f p else p)

/-- Typed cache read for a single post (`cacheService.get<IPost>`). -/
def getCachedPost (c : CacheB CachedVal) (k : String) : Option PostRec :=
  match cacheGet c k with
  | some (.post p) => some p
  | _ => none

/-- Typed cache read for a paginated result
(`cacheService.get<PaginatedPosts>`). -/
def getCachedPaged (c : CacheB CachedVal) (k : String) : Option PagedPosts :=
  match cacheGet c k with
  | some (.paged r) => some r
  | _ => none

/-- `PostService.invalidatePostCaches`: delete the specific post key when a
postId was passed, then invalidate every `post:list*` and `search*` key.
(Any error in here is caught and logged; in this model the individual cache
operations already never raise.) -/
def invalidatePostCaches (c : CacheB CachedVal) (pid? : Option String) : CacheB CachedVal :=
  let c1 := match pid? with
    | some pid => cacheDelete c (cacheKeyPost pid)
    | none => c
  let c2 := invalidatePattern c1 postListPattern
  invalidatePattern c2 searchPattern

/-- Does a post match the `listPosts` query built from the filters?
(`author` equality, `tags: {$in: ...}`, `status` defaulting to
`published`.) -/
def matchesFilters (f : PostFilters) (p : PostRec) : Bool :=
  (match f.author with | some a => p.author == a | none => true)
  && (if f.tags.length > 0 then f.tags.any (fun t => p.tags.contains t) else true)
  && (p.status == (match f.status with | some s => s | none => "published"))

/-- Sort a post list by `createdAt` descending (`sort({createdAt: -1})`). -/
def sortByCreatedDesc (l : List PostRec) : List PostRec :=
  l.insertionSort (fun a b => b.createdAt ≤ a.createdAt)

/-- `Math.ceil(total / limit)` on naturals. -/
def ceilDiv (total limit : Nat) : Nat := (total + limit - 1) / limit

/-- The store query performed by `listPosts` (filter, sort by `createdAt`
descending, skip/limit, and the total count). -/
def computePostList (posts : List PostRec) (f : PostFilters) (page limit : Nat) : PagedPosts :=
  let matching := posts.filter (matchesFilters f)
  let pagePosts := ((sortByCreatedDesc matching).drop ((page - 1) * limit)).take limit
  let total := matching.length
  let totalPages := ceilDiv total limit
  ⟨pagePosts, total, page, totalPages, page < totalPages⟩

/-- `PostService.listPosts`: cache-aside read of a post list. -/
def listPosts (st : PState) (f : PostFilters) (page limit : Nat) : PagedPosts × PState :=
  let key := cacheKeyPostList f page limit
  match getCachedPaged st.cache key with
  | some r => (r, st)
  | none =>
    let r := computePostList st.posts f page limit
    (r, { st with cache := cacheSet st.cache key (.paged r) (some ttlPOSTS) })

/-- Does `sub` occur as a contiguous segment of `l`? -/
def listInfixOf : List Char → List Char → Bool
  | p, [] => p.isEmpty
  | p, c :: rest => listStarts p (c :: rest) || listInfixOf p rest

/-- Helper for `splitWords`: `cur` accumulates the current token reversed. -/
def splitWordsAux (cur : List Char) : List Char → List (List Char)
  | [] => if cur.isEmpty then [] else [cur.reverse]
  | c :: rest =>
    if c == ' ' then
      if cur.isEmpty then splitWordsAux [] rest
      else cur.reverse :: splitWordsAux [] rest
    else splitWordsAux (c :: cur) rest

/-- Split a character list on spaces, dropping empty tokens. -/
def splitWords (l : List Char) : List (List Char) := splitWordsAux [] l

/-- Abstraction of MongoDB `$text` matching: every whitespace token of the
query occurs in the post's title or content.  (The exact stemming and
scoring of `$text` is not translatable; only the fact that search results
are recomputed from the store matters to the claims below.) -/
def textMatches (q : String) (p : PostRec) : Bool :=
  (splitWords q.data).all (fun w => listInfixOf w p.title.data || listInfixOf w p.content.data)

/-- Does a post match the `searchPosts` query (status defaulting to
`published`, optional `$text`, tags `$in`, author)? -/
def matchesSearch (q : String) (f : PostFilters) (p : PostRec) : Bool :=
  (p.status == (match f.status with | some s => s | none => "published"))
  && (if (strTrim q).data.length > 0 then textMatches q p else true)
  && (if f.tags.length > 0 then f.tags.any (fun t => p.tags.contains t) else true)
  && (match f.author with | some a => p.author == a | none => true)

/-- The sort relation used for a given search sort: `popularity` sorts by
(likes, commentCount, createdAt) descending, the others by `createdAt`
descending (text relevance scoring abstracted to recency). -/
def searchLe (sb : SearchSort) (a b : PostRec) : Bool :=
  match sb with
  | .popularity =>
    if b.likes.length < a.likes.length then true
    else if a.likes.length < b.likes.length then false
    else if b.commentCount < a.commentCount then true
    else if a.commentCount < b.commentCount then false
    else b.createdAt ≤ a.createdAt
  | _ => b.createdAt ≤ a.createdAt

/-- The store query performed by `searchPosts`. -/
def computeSearch (posts : List PostRec) (q : String) (f : PostFilters)
    (sb : SearchSort) (page limit : Nat) : PagedPosts :=
  let matching := posts.filter (matchesSearch q f)
  let pagePosts :=
    ((matching.insertionSort (fun a b => searchLe sb a b = true)).drop ((page - 1) * limit)).take
      limit
  let total := matching.length
  let totalPages := ceilDiv total limit
  ⟨pagePosts, total, page, totalPages, page < totalPages⟩

/-- `PostService.searchPosts`: cache-aside read of a search result. -/
def searchPosts (st : PState) (q : String) (f : PostFilters) (sb : SearchSort)
    (page limit : Nat) : PagedPosts × PState :=
  let key := cacheKeySearch q f sb page
  match getCachedPaged st.cache key with
  | some r => (r, st)
  | none =>
    let r := computeSearch st.posts q f sb page limit
    (r, { st with cache := cacheSet st.cache key (.paged r) (some ttlSEARCH) })

/-- `PostService.getPost`: cache-aside read of a single post that also
increments the store's view counter on every call (hit or miss). -/
def getPost (st : PState) (pid : String) : Except String (PostRec × PState) :=
  if isValidObjectId pid = false then .error "Post not found"
  else
    let key := cacheKeyPost pid
    match getCachedPost st.cache key with
    | some cached =>
      .ok (cached, { st with
        posts := updatePost st.posts pid (fun p => { p with viewCount := p.viewCount + 1 }) })
    | none =>
      match findPost st.posts pid with
      | none => .error "Post not found"
      | some p =>
        let p1 := { p with viewCount := p.viewCount + 1 }
        .ok (p1, { st with
          posts := updatePost st.posts pid (fun q => { q with viewCount := q.viewCount + 1 }),
          cache := cacheSet st.cache key (.post p1) (some ttlPOSTS) })

/-- The payload of `PostService.createPost`. -/
structure CreatePostData where
  title : String
  content : String
  tags : List String
  status : Option String
deriving DecidableEq

/-- `PostService.createPost`: save the new post, then invalidate the list
and search caches (no post-specific key is deleted — the new post has no
cached entry yet).  `newId`/`now` stand for the id and timestamp Mongo
generates. -/
def createPost (st : PState) (userId : String) (d : CreatePostData)
    (newId : String) (now : Nat) : PostRec × PState :=
  let p : PostRec :=
    ⟨newId, userId, d.title, d.content, d.tags,
      (match d.status with | some s => s | none => "published"), [], [], 0, 0, now⟩
  (p, { st with posts := st.posts ++ [p],
                cache := invalidatePostCaches st.cache none })

/-- `PostService.likePost`: idempotent like.  Only when the user was not yet
in the like set does it mutate the store and invalidate the caches.  (The
fire-and-forget like notification is outside this state.) -/
def likePost (st : PState) (pid uid : String) : Except String PState :=
  if isValidObjectId pid = false then .error "Post not found"
  else
    match findPost st.posts pid with
    | none => .error "Post not found"
    | some p =>
      if p.likes.contains uid then .ok st
      else .ok { st with
        posts := updatePost st.posts pid (fun q => { q with likes := q.likes ++ [uid] }),
        cache := invalidatePostCaches st.cache (some pid) }

/-- `PostService.unlikePost`: remove the user from the like set (a plain
filter, removing every occurrence) and invalidate the caches. -/
def unlikePost (st : PState) (pid uid : String) : Except String PState :=
  if isValidObjectId pid = false then .error "Post not found"
  else
    match findPost st.posts pid with
    | none => .error "Post not found"
    | some _ =>
      .ok { st with
        posts := updatePost st.posts pid
          (fun q => { q with likes := q.likes.filter (fun v => (v == uid) = false) }),
        cache := invalidatePostCaches st.cache (some pid) }

/-- `PostService.bookmarkPost`: idempotent bookmark, mirroring `likePost`. -/
def bookmarkPost (st : PState) (pid uid : String) : Except String PState :=
  if isValidObjectId pid = false then .error "Post not found"
  else
    match findPost st.posts pid with
    | none => .error "Post not found"
    | some p =>
      if p.bookmarks.contains uid then .ok st
      else .ok { st with
        posts := updatePost st.posts pid (fun q => { q with bookmarks := q.bookmarks ++ [uid] }),
        cache := invalidatePostCaches st.cache (some pid) }

/-- `PostService.unbookmarkPost`, mirroring `unlikePost`. -/
def unbookmarkPost (st : PState) (pid uid : String) : Except String PState :=
  if isValidObjectId pid = false then .error "Post not found"
  else
    match findPost st.posts pid with
    | none => .error "Post not found"
    | some _ =>
      .ok { st with
        posts := updatePost st.posts pid
          (fun q => { q with bookmarks := q.bookmarks.filter (fun v => (v == uid) = false) }),
        cache := invalidatePostCaches st.cache (some pid) }

/-- `Comment.findById`. -/
def findComment (l : List CommentRec) (cid : String) : Option CommentRec :=
  l.find? (fun c => c.id == cid)

/-- `PostService.addComment`: validate the post (and optional parent
comment), persist the comment, bump the post's comment counter, invalidate
the caches, and return the comment.  (The fire-and-forget comment/mention
notifications are outside this state.) -/
def addComment (st : PState) (pid uid : String) (content : String)
    (parent : Option String) (newId : String) (now : Nat) : Except String (CommentRec × PState) :=
  if isValidObjectId pid = false then .error "Post not found"
  else
    match findPost st.posts pid with
    | none => .error "Post not found"
    | some _ =>
      match parent with
      | some par =>
        if isValidObjectId par = false then .error "Parent comment not found"
        else
          match findComment st.comments par with
          | none => .error "Parent comment not found"
          | some pc =>
            if (pc.post == pid) = false then
              .error "Parent comment does not belong to this post"
            else
              let c : CommentRec := ⟨newId, uid, pid, content, some par, now⟩
              .ok (c, { st with
                comments := st.comments ++ [c],
                posts := updatePost st.posts pid
                  (fun q => { q with commentCount := q.commentCount + 1 }),
                cache := invalidatePostCaches st.cache (some pid) })
      | none =>
        let c : CommentRec := ⟨newId, uid, pid, content, none, now⟩
        .ok (c, { st with
          comments := st.comments ++ [c],
          posts := updatePost st.posts pid
            (fun q => { q with commentCount := q.commentCount + 1 }),
          cache := invalidatePostCaches st.cache (some pid) })

/-- The content-mutating `PostService` operations with cached read paths. -/
inductive WriteOp where
  | create (userId : String) (d : CreatePostData) (newId : String) (now : Nat)
  | like (pid uid : String)
  | unlike (pid uid : String)
  | bookmark (pid uid : String)
  | unbookmark (pid uid : String)
  | comment (pid uid : String) (content : String) (parent : Option String)
      (newId : String) (now : Nat)
deriving DecidableEq

/-- Run a content-mutating operation (dropping the returned document). -/
def applyWrite : WriteOp → PState → Except String PState
  | .create userId d newId now, st => .ok (createPost st userId d newId now).2
  | .like pid uid, st => likePost st pid uid
  | .unlike pid uid, st => unlikePost st pid uid
  | .bookmark pid uid, st => bookmarkPost st pid uid
  | .unbookmark pid uid, st => unbookmarkPost st pid uid
  | .comment pid uid content parent newId now, st =>
    match addComment st pid uid content parent newId now with
    | .error e => .error e
    | .ok (_, st1) => .ok st1

/-- The postId whose specific cache key the operation deletes (none for
`create`, which has no cached entry to delete). -/
def writePostId : WriteOp → Option String
  | .create .. => none
  | .like pid _ => some pid
  | .unlike pid _ => some pid
  | .bookmark pid _ => some pid
  | .unbookmark pid _ => some pid
  | .comment pid _ _ _ _ _ => some pid

/-! ## Chat service (`chat.service.ts`, `chat.model.ts`, `message.model.ts`) -/

/-- A persisted chat document. -/
structure ChatRec where
  id : String
  ctype : String
  name : Option String
  participants : List String
  lastMessage : Option String
deriving DecidableEq

/-- A persisted message document. -/
structure MsgRec where
  id : String
  chat : String
  sender : String
  content : String
  readBy : List String
  createdAt : Nat
deriving DecidableEq

/-- The chat module's persistent store. -/
structure ChatSt where
  chats : List ChatRec
  msgs : List MsgRec
deriving DecidableEq

/-- `sendMessage(userId, {chatId, content})`: validate that the chat exists
and the sender is a participant, persist the message (sender pre-added to
`readBy`, content trimmed), and update the chat's `lastMessage`.  `newId`
and `now` stand for the id and timestamp Mongo generates. -/
def sendMessage (userId chatId content : String) (newId : String) (now : Nat)
    (st : ChatSt) : Except String (MsgRec × ChatSt) :=
  match st.chats.find? (fun c => c.id == chatId) with
  | none => .error "Chat not found"
  | some chat =>
    if (chat.participants.contains userId) = false then
      .error "User is not a participant in this chat"
    else
      let m : MsgRec := ⟨newId, chatId, userId, strTrim content, [userId], now⟩
      .ok (m, ⟨st.chats.map (fun c =>
          if c.id == chatId then { c with lastMessage := some m.id } else c),
        st.msgs ++ [m]⟩)

/-- The `findOne` query of `getOrCreateDirectChat`: type `direct`,
participants `$all: [u1, u2]` and `$size: 2`. -/
def directChatQuery (u1 u2 : String) (c : ChatRec) : Bool :=
  c.ctype == "direct" && c.participants.contains u1 && c.participants.contains u2
    && c.participants.length == 2

/-- `getOrCreateDirectChat(userId1, userId2)`: reject self-chats, return the
existing direct chat for the pair when one exists, otherwise create one
with participants `[userId1, userId2]`. -/
def getOrCreateDirectChat (u1 u2 : String) (st : ChatSt) (newId : String) :
    Except String (ChatRec × ChatSt) :=
  if u1 == u2 then .error "Cannot create chat with yourself"
  else
    match st.chats.find? (directChatQuery u1 u2) with
    | some c => .ok (c, st)
    | none =>
      let c : ChatRec := ⟨newId, "direct", none, [u1, u2], none⟩
      .ok (c, { st with chats := st.chats ++ [c] })

/-! ## Socket layer (`socket.ts`, `chatHandlers.ts`, `pubsub.ts`)

Two or more server instances share the store and the Redis bus; each
instance holds its own Socket.IO server with locally connected sockets.
No Socket.IO adapter is configured (`new Server(httpServer, {...})` in
`initializeSocketIO`), so `io.to(room).emit(...)` reaches only the sockets
connected to that same instance; cross-instance delivery exists only via
the `socket:broadcast` / `socket:room` / `socket:user` Redis channels wired
up in `initializePubSub`. -/

/-- A connected socket: its id, the authenticated user (if any), and the
rooms it has joined on its instance. -/
structure SockConn where
  sid : String
  userId : Option String
  rooms : List String
deriving DecidableEq

/-- One server instance's Socket.IO server: its locally connected sockets. -/
structure Inst where
  sockets : List SockConn
deriving DecidableEq

/-- The multi-instance deployment. -/
structure Sys where
  instances : List Inst
deriving DecidableEq

/-- One `socket.emit(event, payload)` performed by some instance. -/
structure Emit where
  instIdx : Nat
  sid : String
  event : String
  payload : MsgRec
deriving DecidableEq

/-- `io.to(room).emit(event, m)` on instance `i`: emits to every socket of
THAT instance that has joined the room (no adapter, so no other instance is
reached). -/
def localRoomEmits (sys : Sys) (i : Nat) (room event : String) (m : MsgRec) : List Emit :=
  match sys.instances[i]? with
  | none => []
  | some inst =>
    (inst.sockets.filter (fun s => s.rooms.contains room)).map
      (fun s => ⟨i, s.sid, event, m⟩)

/-- Delivery of a message published on the `socket:room` channel: every
instance's subscriber (registered in `initializePubSub`) performs the local
room emit, so all instances' room members receive the event. -/
def pubSubRoomEmits (sys : Sys) (room event : String) (m : MsgRec) : List Emit :=
  ((List.range sys.instances.length).map (fun i => localRoomEmits sys i room event m)).flatten

/-- The acknowledgment sent back to the sender by the `send_message`
handler. -/
inductive SendAck where
  | ok (m : MsgRec)
  | err (msg : String)
deriving DecidableEq

/-- The `send_message` handler of `registerChatHandlers`, running on
instance `i` for socket `sock`: check authentication, validate the payload
(`!chatId || !content || content.trim().length === 0`), persist via
`sendMessage`, then broadcast `new_message` with `getIO().to(room).emit` —
a local emit on instance `i` only — and acknowledge the sender.  Service
errors are caught and turned into an error acknowledgment. -/
def handleSendMessage (sys : Sys) (i : Nat) (sock : SockConn)
    (chatId content : String) (newId : String) (now : Nat) (cst : ChatSt) :
    SendAck × ChatSt × List Emit :=
  match sock.userId with
  | none => (.err "Authentication required", cst, [])
  | some uid =>
    if chatId == "" || content == "" || (strTrim content).data.length == 0 then
      (.err "Invalid message data", cst, [])
    else
      match sendMessage uid chatId content newId now cst with
      | .error e => (.err e, cst, [])
      | .ok (m, cst1) =>
        (.ok m, cst1, localRoomEmits sys i ("chat:" ++ chatId) "new_message" m)

/-! ## Presence tracker (`presence.service.ts`)

The backing Redis state: per-user presence records (key
`presence:user:<userId>`), the `presence:online` set, and the pub/sub
publisher.  `fail = true` models a storage layer on which every Redis data
command raises; `pubFail = true` models a failing publisher connection. -/

/-- A presence record as serialized under `presence:user:<userId>`. -/
structure PresenceRec where
  userId : String
  status : String
  lastSeen : Nat
  socketId : Option String
deriving DecidableEq

/-- The shared Redis state used by the presence tracker. -/
structure RedisP where
  fail : Bool
  pubFail : Bool
  presence : List (String × PresenceRec)
  onlineSet : List String
  published : List (String × String × String)
deriving DecidableEq

/-- Keyspace read of a presence record. -/
def lookupPresence (r : RedisP) (uid : String) : Option PresenceRec :=
  match r.presence.find? (fun e => e.1 == uid) with
  | some e => some e.2
  | none => none

/-- Raw `redis.get(presenceKey)`. -/
def rGet (r : RedisP) (uid : String) : Except String (Option PresenceRec) :=
  if r.fail then .error "Redis error" else .ok (lookupPresence r uid)

/-- Raw `redis.setEx(presenceKey, TTL, record)`. -/
def rSetEx (r : RedisP) (uid : String) (rec : PresenceRec) : Except String RedisP :=
  if r.fail then .error "Redis error"
  else .ok { r with presence :=
    (r.presence.filter (fun e => (e.1 == uid) = false)) ++ [(uid, rec)] }

/-- Raw `redis.sAdd(ONLINE_USERS_SET, userId)`. -/
def rSAdd (r : RedisP) (uid : String) : Except String RedisP :=
  if r.fail then .error "Redis error"
  else if r.onlineSet.contains uid then .ok r
  else .ok { r with onlineSet := r.onlineSet ++ [uid] }

/-- Raw `redis.sRem(ONLINE_USERS_SET, userId)`. -/
def rSRem (r : RedisP) (uid : String) : Except String RedisP :=
  if r.fail then .error "Redis error"
  else .ok { r with onlineSet := r.onlineSet.filter (fun v => (v == uid) = false) }

/-- Raw `redis.sMembers(ONLINE_USERS_SET)`. -/
def rSMembers (r : RedisP) : Except String (List String) :=
  if r.fail then .error "Redis error" else .ok r.onlineSet

/-- Raw `redis.exists(presenceKey)`. -/
def rExists (r : RedisP) (uid : String) : Except String Bool :=
  if r.fail then .error "Redis error" else .ok (lookupPresence r uid).isSome

/-- `publishMessage` on the bus (pub/sub publisher): errors propagate to the
caller. -/
def publishPresence (r : RedisP) (uid event status : String) : Except String RedisP :=
  if r.pubFail then .error "Redis publish error"
  else .ok { r with published := r.published ++ [(uid, event, status)] }

/-- `emitToUserAcrossInstances` (`pubsub.ts`): publish on `socket:user`;
any publish error is caught and logged, never re-raised. -/
def emitToUserAcrossInstances (r : RedisP) (uid event status : String) : RedisP :=
  match publishPresence r uid event status with
  | .error _ => r
  | .ok r1 => r1

/-- `broadcastPresenceUpdate`: emit the presence update, catching and
logging any error (fire-and-forget). -/
def broadcastPresenceUpdate (r : RedisP) (uid status : String) : RedisP :=
  emitToUserAcrossInstances r uid "presence:update" status

/-- `setUserOnline(userId, socketId)`: write the online record with a TTL,
add the user to the online set and broadcast; the catch block logs the
storage error and then RE-THROWS it (`throw error`). -/
def setUserOnline (uid sid : String) (now : Nat) (r : RedisP) : Except String RedisP :=
  match (do
      let r1 ← rSetEx r uid ⟨uid, "online", now, some sid⟩
      let r2 ← rSAdd r1 uid
      pure (broadcastPresenceUpdate r2 uid "online") : Except String RedisP) with
  | .error e => .error e
  | .ok r3 => .ok r3

/-- `setUserOffline(userId)`: write the offline record, remove the user
from the online set and broadcast; the catch block logs the storage error
and then RE-THROWS it (`throw error`). -/
def setUserOffline (uid : String) (now : Nat) (r : RedisP) : Except String RedisP :=
  match (do
      let r1 ← rSetEx r uid ⟨uid, "offline", now, none⟩
      let r2 ← rSRem r1 uid
      pure (broadcastPresenceUpdate r2 uid "offline") : Except String RedisP) with
  | .error e => .error e
  | .ok r3 => .ok r3

/-- `getUserPresence(userId)`: the stored record if present, a synthesized
offline record if absent, and `null` (here `none`) when the storage layer
raises — the catch block returns `null` instead of re-throwing. -/
def getUserPresence (uid : String) (now : Nat) (r : RedisP) : Option PresenceRec :=
  match rGet r uid with
  | .error _ => none
  | .ok (some rec) => some rec
  | .ok none => some ⟨uid, "offline", now, none⟩

/-- `refreshUserPresence(userId)` (heartbeat): refresh `lastSeen` and the
TTL when a record exists, no-op otherwise; the catch block logs storage
errors and swallows them (no re-throw). -/
def refreshUserPresence (uid : String) (now : Nat) (r : RedisP) : Except String RedisP :=
  match (do
      let p ← rGet r uid
      match p with
      | some rec => rSetEx r uid { rec with lastSeen := now }
      | none => pure r : Except String RedisP) with
  | .error _ => .ok r
  | .ok r1 => .ok r1

/-- The per-member loop of `cleanupStalePresence`. -/
def cleanupLoop : List String → RedisP → Except String RedisP
  | [], r => .ok r
  | uid :: rest, r => do
    let ex ← rExists r uid
    let r1 ← if ex then pure r else rSRem r uid
    cleanupLoop rest r1

/-- `cleanupStalePresence()`: remove online-set members whose presence
record no longer exists; the catch block logs storage errors and swallows
them (no re-throw). -/
def cleanupStalePresence (r : RedisP) : Except String RedisP :=
  match (do
      let members ← rSMembers r
      cleanupLoop members r : Except String RedisP) with
  | .error _ => .ok r
  | .ok r1 => .ok r1

/-! ## Notification service (`notification.service.ts`,
`notification.model.ts`, `notification.types.ts`) -/

/-- A persisted notification document. -/
structure NotifRec where
  id : String
  recipient : String
  ntype : String
  actor : String
  message : String
  resourceType : Option String
  resourceId : Option String
  isRead : Bool
  createdAt : Nat
deriving DecidableEq

/-- The notification module's state: the persisted collection plus the
real-time pushes performed so far (pairs of recipient user id and
notification id, i.e. an emit to room `notifications:<userId>`). -/
structure NotifSt where
  notifs : List NotifRec
  pushes : List (String × String)
deriving DecidableEq

/-- The `CreateNotificationDTO` payload. -/
structure CreateNotifData where
  recipientId : String
  ntype : String
  actorId : String
  message : String
  resourceType : Option String
  resourceId : Option String
deriving DecidableEq

/-- `NotificationService.createNotification`: validate the recipient and
actor ids, return without creating anything when `recipientId === actorId`
(self-action suppression, returning `null`), validate the optional resource
id, persist the record, and push it to the recipient's notification room
(push failures are caught inside `emitNotificationToUser` and never undo
persistence). -/
def createNotification (d : CreateNotifData) (newId : String) (now : Nat)
    (st : NotifSt) : Except String (Option NotifRec × NotifSt) :=
  if isValidObjectId d.recipientId = false then .error "Invalid recipient ID"
  else if isValidObjectId d.actorId = false then .error "Invalid actor ID"
  else if d.recipientId == d.actorId then .ok (none, st)
  else if (match d.resourceId with
           | some rid => !(isValidObjectId rid)
           | none => false) = true then .error "Invalid resource ID"
  else
    let n : NotifRec := ⟨newId, d.recipientId, d.ntype, d.actorId, d.message,
      d.resourceType, d.resourceId, false, now⟩
    .ok (some n, ⟨st.notifs ++ [n], st.pushes ++ [(d.recipientId, newId)]⟩)

/-- The filters accepted by `getUserNotifications` (`NotificationFilters`:
only `isRead` and `type` — the interface offers no pagination field). -/
structure NotifFilters where
  isRead : Option Bool
  ntype : Option String
deriving DecidableEq

/-- Does a notification match the query built by `getUserNotifications`? -/
def matchesNotifFilters (uid : String) (f : NotifFilters) (n : NotifRec) : Bool :=
  n.recipient == uid
  && (match f.isRead with | some b => n.isRead == b | none => true)
  && (match f.ntype with | some t => n.ntype == t | none => true)

/-- Sort notifications by `createdAt` descending (`sort({createdAt: -1})`). -/
def sortNotifsDesc (l : List NotifRec) : List NotifRec :=
  l.insertionSort (fun a b => b.createdAt ≤ a.createdAt)

/-- `NotificationService.getUserNotifications(userId, filters)`: validate
the user id, then return the matching notifications sorted by creation time
descending, limited to the most recent 50 (`.limit(50)`), with no
pagination offered. -/
def getUserNotifications (uid : String) (f : NotifFilters) (st : NotifSt) :
    Except String (List NotifRec) :=
  if isValidObjectId uid = false then .error "Invalid user ID"
  else .ok ((sortNotifsDesc (st.notifs.filter (matchesNotifFilters uid f))).take 50)

/-- The notification state left behind by a `createNotification` call: a
thrown validation error leaves the prior state untouched (the service
throws before any mutation). -/
def notifResultState (r : Except String (Option NotifRec × NotifSt)) (st0 : NotifSt) : NotifSt :=
  match r with
  | .error _ => st0
  | .ok (_, st) => st

/-! ## Theorems -/

/-- Claim C3: for all inputs with `recipientId == actorId`,
`createNotification` persists no notification record and pushes nothing to
the recipient's notification room — whether it rejects the ids as malformed
(throwing before any mutation) or takes the self-suppression early return,
the state is unchanged and no created notification is ever returned. -/
theorem c3_self_suppression (d : CreateNotifData) (newId : String) (now : Nat)
    (st : NotifSt) (h : d.recipientId = d.actorId) :
    notifResultState (createNotification d newId now st) st = st ∧
    ∀ n st1, createNotification d newId now st ≠ .ok (some n, st1) := by
  unfold createNotification
  rw [h]
  by_cases hv : isValidObjectId d.actorId = false
  · simp [hv, notifResultState]
  · simp [hv, notifResultState]

/-- Claim C3 witness: a concrete self-notification attempt leaves the
state untouched. -/
theorem c3_self_suppression_witness :
    notifResultState
      (createNotification
        ⟨"507f1f77bcf86cd799439011", "like", "507f1f77bcf86cd799439011", "liked", none, none⟩
        "n1" 3 ⟨[], []⟩)
      ⟨[], []⟩ = ⟨[], []⟩ ∧
    ∀ n st1, createNotification
        ⟨"507f1f77bcf86cd799439011", "like", "507f1f77bcf86cd799439011", "liked", none, none⟩
        "n1" 3 ⟨[], []⟩ ≠ .ok (some n, st1) :=
  c3_self_suppression _ "n1" 3 ⟨[], []⟩ rfl

/-- Claim C8: `getUserPresence` returns the stored live record when one
exists, a synthesized offline record when none exists (never failing the
caller), and `none` (null) exactly when the storage layer raises — so the
error result is distinguishable from the synthesized offline result. -/
theorem c8_getPresence (uid : String) (now : Nat) (r : RedisP) :
    (r.fail = true → getUserPresence uid now r = none) ∧
    (r.fail = false → ∀ p, lookupPresence r uid = some p → getUserPresence uid now r = some p) ∧
    (r.fail = false → lookupPresence r uid = none →
      getUserPresence uid now r = some ⟨uid, "offline", now, none⟩) ∧
    (r.fail = false → getUserPresence uid now r ≠ none) := by
  unfold getUserPresence rGet
  refine ⟨fun hf => by simp [hf], fun hf p hp => by simp [hf, hp],
    fun hf hp => by simp [hf, hp], fun hf => ?_⟩
  cases hp : lookupPresence r uid <;> simp [hf, hp]

/-- Claim C8 witness: concrete runs of the three `getUserPresence`
behaviours (stored record, synthesized offline, storage error). -/
theorem c8_getPresence_witness :
    getUserPresence "u1" 5 ⟨true, false, [], [], []⟩ = none ∧
    getUserPresence "u1" 5 ⟨false, false, [("u1", ⟨"u1", "online", 2, some "s1"⟩)], ["u1"], []⟩
      = some ⟨"u1", "online", 2, some "s1"⟩ ∧
    getUserPresence "u1" 5 ⟨false, false, [], [], []⟩ = some ⟨"u1", "offline", 5, none⟩ :=
  ⟨(c8_getPresence "u1" 5 _).1 rfl,
   (c8_getPresence "u1" 5 _).2.1 rfl _ rfl,
   (c8_getPresence "u1" 5 _).2.2.1 rfl rfl⟩

/-- Claim C2 counterexample: with a failing storage layer, `setUserOnline`
does NOT swallow the error — its catch block logs and then re-throws, so
the storage error propagates to the caller, contradicting the claim that
no Presence Tracker operation propagates storage errors. -/
theorem c2_counterexample :
    setUserOnline "u1" "s1" 0 ⟨true, false, [], [], []⟩ = .error "Redis error" ∧
    setUserOffline "u1" 0 ⟨true, false, [], [], []⟩ = .error "Redis error" := ⟨rfl, rfl⟩

/-- The cleanup loop never raises when the storage layer is healthy. -/
theorem cleanupLoop_ok (l : List String) (r : RedisP) (hf : r.fail = false) :
    ∃ r1, cleanupLoop l r = .ok r1 := by
  induction l generalizing r with
  | nil => exact ⟨r, rfl⟩
  | cons uid rest ih =>
    unfold cleanupLoop rExists rSRem
    cases hex : (lookupPresence r uid).isSome
    · simpa [hf, hex] using ih { r with onlineSet := r.onlineSet.filter (fun v => (v == uid) = false) } hf
    · simpa [hf, hex] using ih r hf

/-- Claim C2 (amended): under a failing storage layer, `heartbeat`
(`refreshUserPresence`) and `cleanupStalePresence` catch and log the error
without propagating it, and `getUserPresence` signals it by returning null;
but `setUserOnline` and `setUserOffline` re-throw the storage error to
their caller after logging it. -/
theorem c2_amended (r : RedisP) (uid sid : String) (now : Nat) (hf : r.fail = true) :
    setUserOnline uid sid now r = .error "Redis error" ∧
    setUserOffline uid now r = .error "Redis error" ∧
    refreshUserPresence uid now r = .ok r ∧
    cleanupStalePresence r = .ok r ∧
    getUserPresence uid now r = none ∧
    (∀ r2 : RedisP, ∃ r3, refreshUserPresence uid now r2 = .ok r3) ∧
    (∀ r2 : RedisP, ∃ r3, cleanupStalePresence r2 = .ok r3) := by
  refine ⟨?_, ?_, ?_, ?_, ?_, ?_, ?_⟩
  · unfold setUserOnline rSetEx
    simp only [hf, if_true]
    rfl
  · unfold setUserOffline rSetEx
    simp only [hf, if_true]
    rfl
  · unfold refreshUserPresence rGet
    simp only [hf, if_true]
    rfl
  · unfold cleanupStalePresence rSMembers
    simp only [hf, if_true]
    rfl
  · unfold getUserPresence rGet
    simp only [hf, if_true]
  · intro r2
    unfold refreshUserPresence rGet rSetEx
    cases hf2 : r2.fail
    · cases hp : lookupPresence r2 uid
      · exact ⟨_, rfl⟩
      · exact ⟨_, rfl⟩
    · exact ⟨_, rfl⟩
  · intro r2
    unfold cleanupStalePresence rSMembers
    cases hf2 : r2.fail
    · obtain ⟨r3, h3⟩ := cleanupLoop_ok r2.onlineSet r2 hf2
      refine ⟨r3, ?_⟩
      show (match cleanupLoop r2.onlineSet r2 with
        | Except.error _ => Except.ok r2
        | Except.ok r1 => Except.ok r1) = Except.ok r3
      rw [h3]
    · exact ⟨_, rfl⟩

/-- Claim C2 witness for the amended claim, at a concrete failing store. -/
theorem c2_amended_witness :
    setUserOnline "u1" "s1" 0 ⟨true, false, [], ["u1"], []⟩ = .error "Redis error" ∧
    refreshUserPresence "u1" 0 ⟨true, false, [], ["u1"], []⟩ = .ok ⟨true, false, [], ["u1"], []⟩ ∧
    cleanupStalePresence ⟨true, false, [], ["u1"], []⟩ = .ok ⟨true, false, [], ["u1"], []⟩ ∧
    getUserPresence "u1" 0 ⟨true, false, [], ["u1"], []⟩ = none :=
  ⟨(c2_amended ⟨true, false, [], ["u1"], []⟩ "u1" "s1" 0 rfl).1,
   (c2_amended ⟨true, false, [], ["u1"], []⟩ "u1" "s1" 0 rfl).2.2.1,
   (c2_amended ⟨true, false, [], ["u1"], []⟩ "u1" "s1" 0 rfl).2.2.2.1,
   (c2_amended ⟨true, false, [], ["u1"], []⟩ "u1" "s1" 0 rfl).2.2.2.2.1⟩

/-- Rewriting the documents with a given id commutes with finding that id,
provided the rewrite preserves the id field. -/
theorem findPost_updatePost (l : List PostRec) (pid : String) (f : PostRec → PostRec)
    (hf : ∀ q, (f q).id = q.id) :
    findPost (updatePost l pid f) pid = (findPost l pid).map f := by
  induction l with
  | nil => rfl
  | cons p rest ih =>
    show List.find? (fun q => q.id == pid)
        ((if (p.id == pid) = true then f p else p) :: updatePost rest pid f)
      = (List.find? (fun q => q.id == pid) (p :: rest)).map f
    cases hp : p.id == pid
    · rw [if_neg (by simp [hp])]
      rw [List.find?_cons_of_neg _ (by simp [hp]), List.find?_cons_of_neg _ (by simp [hp])]
      exact ih
    · rw [if_pos (by simp_all)]
      rw [List.find?_cons_of_pos _ (by simp [hf, hp]), List.find?_cons_of_pos _ (by simp [hp])]
      rfl

/-- Claim C7: when the cache backend raises on every call, `CacheService.get`
returns a miss rather than throwing, `set`/`delete`/`invalidatePattern`
return normally leaving the cache unchanged, and a store-backed operation
that calls them (here `getPost` and `listPosts`) still completes with the
correct result computed from the persistent store. -/
theorem c7_graceful_degradation {α : Type} (c : CacheB α) (k pat : String) (v : α)
    (ttl : Option Nat) (st : PState) (pid : String) (p : PostRec)
    (hc : c.fail = true) (hst : st.cache.fail = true)
    (hv : isValidObjectId pid = true) (hp : findPost st.posts pid = some p) :
    cacheGet c k = none ∧
    cacheSet c k v ttl = c ∧
    cacheDelete c k = c ∧
    invalidatePattern c pat = c ∧
    (∃ st1, getPost st pid = .ok ({ p with viewCount := p.viewCount + 1 }, st1) ∧
      findPost st1.posts pid = some { p with viewCount := p.viewCount + 1 }) ∧
    (∀ f page limit, (listPosts st f page limit).1 = computePostList st.posts f page limit) := by
  refine ⟨?_, ?_, ?_, ?_, ?_, ?_⟩
  · unfold cacheGet clientGet
    simp [hc]
  · unfold cacheSet clientSet
    simp [hc]
  · unfold cacheDelete clientDel
    simp [hc]
  · unfold invalidatePattern
    simp [hc]
  · have hmiss : getCachedPost st.cache (cacheKeyPost pid) = none := by
      unfold getCachedPost cacheGet clientGet
      simp [hst]
    refine ⟨{ st with
        posts := updatePost st.posts pid (fun q => { q with viewCount := q.viewCount + 1 }),
        cache := cacheSet st.cache (cacheKeyPost pid)
          (.post { p with viewCount := p.viewCount + 1 }) (some ttlPOSTS) }, ?_, ?_⟩
    · unfold getPost
      rw [hv]
      simp only [Bool.true_eq_false, if_false, hmiss, hp]
    · show findPost (updatePost st.posts pid
        (fun q => { q with viewCount := q.viewCount + 1 })) pid = _
      rw [findPost_updatePost st.posts pid
        (fun q => { q with viewCount := q.viewCount + 1 }) (fun q => rfl), hp]
      rfl
  · intro f page limit
    have hmiss : getCachedPaged st.cache (cacheKeyPostList f page limit) = none := by
      unfold getCachedPaged cacheGet clientGet
      simp [hst]
    unfold listPosts
    simp only [hmiss]

/-- Claim C7 witness: a concrete failing cache next to a concrete store. -/
theorem c7_graceful_degradation_witness :
    cacheGet (⟨true, [⟨"k", 7, none⟩]⟩ : CacheB Nat) "k" = none ∧
    (∃ st1, getPost
        ⟨[⟨"507f1f77bcf86cd799439011", "a1", "t", "body", [], "published",
            [], [], 4, 0, 9⟩], [], ⟨true, []⟩⟩
        "507f1f77bcf86cd799439011" =
      .ok (⟨"507f1f77bcf86cd799439011", "a1", "t", "body", [], "published",
            [], [], 5, 0, 9⟩, st1) ∧
      findPost st1.posts "507f1f77bcf86cd799439011" =
        some ⟨"507f1f77bcf86cd799439011", "a1", "t", "body", [], "published",
            [], [], 5, 0, 9⟩) :=
  ⟨(c7_graceful_degradation (⟨true, [⟨"k", 7, none⟩]⟩ : CacheB Nat) "k" "p" 7 none
      ⟨[⟨"507f1f77bcf86cd799439011", "a1", "t", "body", [], "published", [], [], 4, 0, 9⟩],
        [], ⟨true, []⟩⟩
      "507f1f77bcf86cd799439011" _ rfl rfl (by decide) rfl).1,
   (c7_graceful_degradation (⟨true, [⟨"k", 7, none⟩]⟩ : CacheB Nat) "k" "p" 7 none
      ⟨[⟨"507f1f77bcf86cd799439011", "a1", "t", "body", [], "published", [], [], 4, 0, 9⟩],
        [], ⟨true, []⟩⟩
      "507f1f77bcf86cd799439011" _ rfl rfl (by decide) rfl).2.2.2.2.1⟩

/-- Claim C9: for an existing post, `getPost` on a cache hit returns the
cached snapshot (whatever it is — not the store document) and still
increments the store's view counter; on a miss it also increments the view
counter, returns the updated store document and populates the cache — the
view-count side effect happens on every call, hit or miss. -/
theorem c9_getPost_viewcount (st : PState) (pid : String) (p c : PostRec)
    (hv : isValidObjectId pid = true)
    (hp : findPost st.posts pid = some p) :
    (getCachedPost st.cache (cacheKeyPost pid) = some c →
      getPost st pid = .ok (c,
        { st with posts :=
            updatePost st.posts pid (fun q => { q with viewCount := q.viewCount + 1 }) })) ∧
    (getCachedPost st.cache (cacheKeyPost pid) = none →
      getPost st pid = .ok ({ p with viewCount := p.viewCount + 1 },
        { st with
          posts := updatePost st.posts pid (fun q => { q with viewCount := q.viewCount + 1 }),
          cache := cacheSet st.cache (cacheKeyPost pid)
            (.post { p with viewCount := p.viewCount + 1 }) (some ttlPOSTS) })) ∧
    findPost (updatePost st.posts pid (fun q => { q with viewCount := q.viewCount + 1 })) pid
      = some { p with viewCount := p.viewCount + 1 } := by
  refine ⟨?_, ?_, ?_⟩
  · intro hhit
    unfold getPost
    rw [hv]
    simp only [Bool.true_eq_false, if_false, hhit]
  · intro hmiss
    unfold getPost
    rw [hv]
    simp only [Bool.true_eq_false, if_false, hmiss, hp]
  · rw [findPost_updatePost st.posts pid
      (fun q => { q with viewCount := q.viewCount + 1 }) (fun q => rfl), hp]
    rfl

/-- Claim C9 witness: a stale cached snapshot (viewCount 3) is returned on
the hit while the store document (viewCount 7) is bumped to 8. -/
theorem c9_getPost_viewcount_witness :
    getPost
      ⟨[⟨"507f1f77bcf86cd799439011", "a1", "t", "body", [], "published", [], [], 7, 0, 9⟩],
        [],
        ⟨false, [⟨"post" ++ ":" ++ "507f1f77bcf86cd799439011",
          .post ⟨"507f1f77bcf86cd799439011", "a1", "t", "body", [], "published",
            [], [], 3, 0, 9⟩, some 120⟩]⟩⟩
      "507f1f77bcf86cd799439011" =
    .ok (⟨"507f1f77bcf86cd799439011", "a1", "t", "body", [], "published", [], [], 3, 0, 9⟩,
      ⟨[⟨"507f1f77bcf86cd799439011", "a1", "t", "body", [], "published", [], [], 8, 0, 9⟩],
        [],
        ⟨false, [⟨"post" ++ ":" ++ "507f1f77bcf86cd799439011",
          .post ⟨"507f1f77bcf86cd799439011", "a1", "t", "body", [], "published",
            [], [], 3, 0, 9⟩, some 120⟩]⟩⟩) := by
  have h := (c9_getPost_viewcount
      ⟨[⟨"507f1f77bcf86cd799439011", "a1", "t", "body", [], "published", [], [], 7, 0, 9⟩],
        [],
        ⟨false, [⟨"post" ++ ":" ++ "507f1f77bcf86cd799439011",
          .post ⟨"507f1f77bcf86cd799439011", "a1", "t", "body", [], "published",
            [], [], 3, 0, 9⟩, some 120⟩]⟩⟩
      "507f1f77bcf86cd799439011"
      ⟨"507f1f77bcf86cd799439011", "a1", "t", "body", [], "published", [], [], 7, 0, 9⟩
      ⟨"507f1f77bcf86cd799439011", "a1", "t", "body", [], "published", [], [], 3, 0, 9⟩
      (by decide) rfl).1 rfl
  exact h

/-- Notifications ordered by descending creation time form a total order. -/
instance : IsTotal NotifRec (fun a b => b.createdAt ≤ a.createdAt) :=
  ⟨fun a b => Nat.le_total b.createdAt a.createdAt⟩

/-- Notifications ordered by descending creation time are transitive. -/
instance : IsTrans NotifRec (fun a b => b.createdAt ≤ a.createdAt) :=
  ⟨fun _ _ _ h1 h2 => Nat.le_trans h2 h1⟩

/-- Claim C10: for every user and filter combination,
`getUserNotifications` returns at most 50 notifications — exactly
`min 50 (number of matching records)`, so the cap binds whenever more
exist — all matching the query, sorted by creation time descending, and
every matching record left out is no more recent than every returned one.
The `NotificationFilters` interface offers only `isRead` and `type`, so no
pagination parameter exists to reach the older records. -/
theorem c10_notifications_capped (uid : String) (f : NotifFilters) (st : NotifSt)
    (hv : isValidObjectId uid = true) :
    ∃ l, getUserNotifications uid f st = .ok l ∧
      l.length = min 50 (st.notifs.filter (matchesNotifFilters uid f)).length ∧
      (∀ n ∈ l, matchesNotifFilters uid f n = true) ∧
      List.Pairwise (fun a b => b.createdAt ≤ a.createdAt) l ∧
      (∀ m ∈ st.notifs.filter (matchesNotifFilters uid f), m ∉ l →
        ∀ n ∈ l, m.createdAt ≤ n.createdAt) := by
  have hperm : (sortNotifsDesc (st.notifs.filter (matchesNotifFilters uid f))).Perm
      (st.notifs.filter (matchesNotifFilters uid f)) :=
    List.perm_insertionSort _ _
  have hsorted : List.Pairwise (fun a b : NotifRec => b.createdAt ≤ a.createdAt)
      (sortNotifsDesc (st.notifs.filter (matchesNotifFilters uid f))) :=
    List.sorted_insertionSort _ _
  refine ⟨(sortNotifsDesc (st.notifs.filter (matchesNotifFilters uid f))).take 50,
    ?_, ?_, ?_, ?_, ?_⟩
  · unfold getUserNotifications
    rw [hv]
    rfl
  · rw [List.length_take, hperm.length_eq]
  · intro n hn
    have hn2 := hperm.mem_iff.mp (List.take_subset 50 _ hn)
    exact (List.mem_filter.mp hn2).2
  · exact hsorted.sublist (List.take_sublist 50 _)
  · intro m hm hnot n hn
    have hms : m ∈ sortNotifsDesc (st.notifs.filter (matchesNotifFilters uid f)) :=
      hperm.mem_iff.mpr hm
    rw [← List.take_append_drop 50
      (sortNotifsDesc (st.notifs.filter (matchesNotifFilters uid f)))] at hms hsorted
    rcases List.mem_append.mp hms with hmt | hmd
    · exact absurd hmt hnot
    · exact (List.pairwise_append.mp hsorted).2.2 n hn m hmd

/-- Claim C10 witness: four matching notifications (out of five stored)
come back sorted descending by creation time. -/
theorem c10_notifications_capped_witness :
    ∃ l, getUserNotifications "507f1f77bcf86cd799439011" ⟨some false, none⟩
        ⟨[⟨"n1", "507f1f77bcf86cd799439011", "like", "a", "m", none, none, false, 1⟩,
          ⟨"n2", "507f1f77bcf86cd799439011", "like", "a", "m", none, none, true, 2⟩,
          ⟨"n3", "507f1f77bcf86cd799439011", "comment", "a", "m", none, none, false, 3⟩,
          ⟨"n4", "ffff1f77bcf86cd799439011", "like", "a", "m", none, none, false, 4⟩,
          ⟨"n5", "507f1f77bcf86cd799439011", "like", "a", "m", none, none, false, 5⟩], []⟩
      = .ok l ∧
      l.length = min 50 3 ∧
      (∀ n ∈ l, matchesNotifFilters "507f1f77bcf86cd799439011" ⟨some false, none⟩ n = true) ∧
      List.Pairwise (fun a b => b.createdAt ≤ a.createdAt) l := by
  obtain ⟨l, h1, h2, h3, h4, _⟩ := c10_notifications_capped "507f1f77bcf86cd799439011"
    ⟨some false, none⟩
    ⟨[⟨"n1", "507f1f77bcf86cd799439011", "like", "a", "m", none, none, false, 1⟩,
      ⟨"n2", "507f1f77bcf86cd799439011", "like", "a", "m", none, none, true, 2⟩,
      ⟨"n3", "507f1f77bcf86cd799439011", "comment", "a", "m", none, none, false, 3⟩,
      ⟨"n4", "ffff1f77bcf86cd799439011", "like", "a", "m", none, none, false, 4⟩,
      ⟨"n5", "507f1f77bcf86cd799439011", "like", "a", "m", none, none, false, 5⟩], []⟩
    (by decide)
  refine ⟨l, h1, ?_, h3, h4⟩
  rw [h2]
  rfl

/-- Iterated `likePost` calls with the same post and user. -/
def likeN (pid uid : String) : Nat → PState → Except String PState
  | 0, st => .ok st
  | n + 1, st =>
    match likePost st pid uid with
    | .error e => .error e
    | .ok st1 => likeN pid uid n st1

/-- The number of occurrences of a user in a post's like set. -/
def likesCount (st : PState) (pid uid : String) : Nat :=
  match findPost st.posts pid with
  | some p => p.likes.count uid
  | none => 0

/-- A `likePost` call on a post whose like set already holds the user is a
complete no-op. -/
theorem likePost_noop (st : PState) (pid uid : String) (p : PostRec)
    (hv : isValidObjectId pid = true) (hp : findPost st.posts pid = some p)
    (hcon : p.likes.contains uid = true) :
    likePost st pid uid = .ok st := by
  unfold likePost
  rw [hv]
  simp only [Bool.true_eq_false, if_false, hp, hcon, if_true]

/-- Iterating `likePost` from an already-liked state stays put. -/
theorem likeN_noop (n : Nat) (st : PState) (pid uid : String) (p : PostRec)
    (hv : isValidObjectId pid = true) (hp : findPost st.posts pid = some p)
    (hcon : p.likes.contains uid = true) :
    likeN pid uid n st = .ok st := by
  induction n with
  | zero => rfl
  | succ n ih =>
    unfold likeN
    rw [likePost_noop st pid uid p hv hp hcon]
    exact ih

/-- Claim C5: from a well-formed store (the user occurs at most once in the
post's like set, as the idempotent write path maintains), `likePost` called
N ≥ 1 times leaves exactly one membership of the user in the like set, and
one `unlikePost` afterwards removes it entirely, regardless of how many
like calls preceded it. -/
theorem c5_like_idempotent (pid uid : String) (st : PState) (p : PostRec) (N : Nat)
    (hv : isValidObjectId pid = true)
    (hp : findPost st.posts pid = some p)
    (hcnt : p.likes.count uid ≤ 1)
    (hN : 1 ≤ N) :
    ∃ st1, likeN pid uid N st = .ok st1 ∧ likesCount st1 pid uid = 1 ∧
      ∃ st2, unlikePost st1 pid uid = .ok st2 ∧ likesCount st2 pid uid = 0 := by
  obtain ⟨n, rfl⟩ : ∃ n, N = n + 1 := ⟨N - 1, by omega⟩
  -- One step establishes a state holding exactly one membership.
  have hstep : ∃ st1 p1, likeN pid uid (n + 1) st = .ok st1 ∧
      findPost st1.posts pid = some p1 ∧ p1.likes.count uid = 1 := by
    cases hcon : p.likes.contains uid
    · -- not yet liked: the first call appends, the remaining calls no-op
      have hcnt0 : p.likes.count uid = 0 :=
        List.count_eq_zero.mpr (by simpa using hcon)
      refine ⟨{ st with
          posts := updatePost st.posts pid (fun q => { q with likes := q.likes ++ [uid] }),
          cache := invalidatePostCaches st.cache (some pid) }, ?_⟩
      have hp1 : findPost (updatePost st.posts pid
          (fun q => { q with likes := q.likes ++ [uid] })) pid =
          some { p with likes := p.likes ++ [uid] } := by
        rw [findPost_updatePost st.posts pid
          (fun q => { q with likes := q.likes ++ [uid] }) (fun q => rfl), hp]
        rfl
      refine ⟨{ p with likes := p.likes ++ [uid] }, ?_, hp1, ?_⟩
      · unfold likeN
        have hlike : likePost st pid uid = .ok { st with
            posts := updatePost st.posts pid (fun q => { q with likes := q.likes ++ [uid] }),
            cache := invalidatePostCaches st.cache (some pid) } := by
          unfold likePost
          rw [hv]
          simp only [Bool.true_eq_false, if_false, hp, hcon]
          rfl
        rw [hlike]
        exact likeN_noop n _ pid uid _ hv hp1 (by simp)
      · simp [hcnt0, List.count_append]
    · -- already liked exactly once: every call is a no-op
      have hcnt1 : p.likes.count uid = 1 := by
        have : 1 ≤ p.likes.count uid := by
          rw [Nat.one_le_iff_ne_zero]
          intro h0
          rw [List.count_eq_zero] at h0
          exact h0 (by simpa using hcon)
        omega
      exact ⟨st, p, likeN_noop (n + 1) st pid uid p hv hp hcon, hp, hcnt1⟩
  obtain ⟨st1, p1, hrun, hp1, hcnt1⟩ := hstep
  refine ⟨st1, hrun, by unfold likesCount; rw [hp1]; exact hcnt1, ?_⟩
  -- The single unlike removes every occurrence.
  refine ⟨{ st1 with
      posts := updatePost st1.posts pid
        (fun q => { q with likes := q.likes.filter (fun v => (v == uid) = false) }),
      cache := invalidatePostCaches st1.cache (some pid) }, ?_, ?_⟩
  · unfold unlikePost
    rw [hv]
    simp only [Bool.true_eq_false, if_false, hp1]
  · unfold likesCount
    rw [findPost_updatePost st1.posts pid
      (fun q => { q with likes := q.likes.filter (fun v => (v == uid) = false) })
      (fun q => rfl), hp1]
    show (p1.likes.filter (fun v => (v == uid) = false)).count uid = 0
    rw [List.count_eq_zero]
    intro hmem
    have := (List.mem_filter.mp hmem).2
    simp at this

/-- Claim C5 witness: three likes then one unlike at a concrete store. -/
theorem c5_like_idempotent_witness :
    ∃ st1, likeN "507f1f77bcf86cd799439011" "u1" 3
        ⟨[⟨"507f1f77bcf86cd799439011", "a1", "t", "body", [], "published", ["u9"], [], 0, 0, 1⟩],
          [], ⟨false, []⟩⟩ = .ok st1 ∧
      likesCount st1 "507f1f77bcf86cd799439011" "u1" = 1 ∧
      ∃ st2, unlikePost st1 "507f1f77bcf86cd799439011" "u1" = .ok st2 ∧
        likesCount st2 "507f1f77bcf86cd799439011" "u1" = 0 :=
  c5_like_idempotent "507f1f77bcf86cd799439011" "u1"
    ⟨[⟨"507f1f77bcf86cd799439011", "a1", "t", "body", [], "published", ["u9"], [], 0, 0, 1⟩],
      [], ⟨false, []⟩⟩
    ⟨"507f1f77bcf86cd799439011", "a1", "t", "body", [], "published", ["u9"], [], 0, 0, 1⟩
    3 (by decide) rfl (by decide) (by decide)

/-- `find?` only depends on the pointwise behaviour of its predicate. -/
theorem find?_congr {α : Type} (l : List α) (p q : α → Bool) (h : ∀ a, p a = q a) :
    l.find? p = l.find? q := by
  induction l with
  | nil => rfl
  | cons a rest ih =>
    rw [List.find?_cons, List.find?_cons, h a, ih]

/-- `find?` over an append looks at the first list first. -/
theorem find?_append_none {α : Type} (l1 l2 : List α) (p : α → Bool)
    (h : l1.find? p = none) : (l1 ++ l2).find? p = l2.find? p := by
  induction l1 with
  | nil => rfl
  | cons a rest ih =>
    rw [List.find?_cons] at h
    cases hp : p a
    · rw [List.cons_append, List.find?_cons, hp]
      rw [hp] at h
      exact ih h
    · rw [hp] at h
      simp at h

/-- The direct-chat lookup query is symmetric in the two users. -/
theorem directChatQuery_symm (u1 u2 : String) (c : ChatRec) :
    directChatQuery u1 u2 c = directChatQuery u2 u1 c := by
  unfold directChatQuery
  cases c.ctype == "direct" <;> cases c.participants.contains u1 <;>
    cases c.participants.contains u2 <;> cases c.participants.length == 2 <;> rfl

/-- Claim C6: for distinct users, calling `getOrCreateDirectChat` twice with
the same pair — in either argument order — succeeds, returns the same chat
on the second call, and leaves the store unchanged (no duplicate direct
chat is ever created); calling it with the two ids equal is rejected with
the validation error. -/
theorem c6_direct_chat_unique (u1 u2 id1 id2 : String) (st : ChatSt) (h : u1 ≠ u2) :
    (∃ c st1, getOrCreateDirectChat u1 u2 st id1 = .ok (c, st1) ∧
      getOrCreateDirectChat u1 u2 st1 id2 = .ok (c, st1) ∧
      getOrCreateDirectChat u2 u1 st1 id2 = .ok (c, st1)) ∧
    (∀ u st0 nid, getOrCreateDirectChat u u st0 nid =
      .error "Cannot create chat with yourself") := by
  have hne : (u1 == u2) = false := by simpa using h
  have hne2 : (u2 == u1) = false := by simpa using (Ne.symm h)
  constructor
  · cases hf : st.chats.find? (directChatQuery u1 u2)
    · -- no existing chat: the first call creates it, both re-calls find it
      refine ⟨⟨id1, "direct", none, [u1, u2], none⟩,
        { st with chats := st.chats ++ [⟨id1, "direct", none, [u1, u2], none⟩] }, ?_, ?_, ?_⟩
      · unfold getOrCreateDirectChat
        rw [hne, hf]
        rfl
      · unfold getOrCreateDirectChat
        rw [hne]
        have : ({ st with chats := st.chats ++ [⟨id1, "direct", none, [u1, u2], none⟩]} :
            ChatSt).chats.find? (directChatQuery u1 u2) =
            some ⟨id1, "direct", none, [u1, u2], none⟩ := by
          show (st.chats ++ [(⟨id1, "direct", none, [u1, u2], none⟩ : ChatRec)]).find?
            (directChatQuery u1 u2) = _
          rw [find?_append_none _ _ _ hf]
          rw [List.find?_cons]
          have hq : directChatQuery u1 u2 ⟨id1, "direct", none, [u1, u2], none⟩ = true := by
            simp [directChatQuery]
          rw [hq]
        rw [this]
        rfl
      · unfold getOrCreateDirectChat
        rw [hne2]
        have : ({ st with chats := st.chats ++ [⟨id1, "direct", none, [u1, u2], none⟩] } :
            ChatSt).chats.find? (directChatQuery u2 u1) =
            some ⟨id1, "direct", none, [u1, u2], none⟩ := by
          show (st.chats ++ [(⟨id1, "direct", none, [u1, u2], none⟩ : ChatRec)]).find?
            (directChatQuery u2 u1) = _
          rw [find?_congr _ _ _ (fun c => (directChatQuery_symm u1 u2 c).symm)]
          rw [find?_append_none _ _ _ hf]
          rw [List.find?_cons]
          have hq : directChatQuery u1 u2 ⟨id1, "direct", none, [u1, u2], none⟩ = true := by
            simp [directChatQuery]
          rw [hq]
        rw [this]
        rfl
    · -- an existing chat: every call finds it and leaves the store alone
      rename_i c
      refine ⟨c, st, ?_, ?_, ?_⟩
      · unfold getOrCreateDirectChat
        rw [hne, hf]
        rfl
      · unfold getOrCreateDirectChat
        rw [hne, hf]
        rfl
      · unfold getOrCreateDirectChat
        rw [hne2]
        rw [find?_congr _ _ _ (fun c => (directChatQuery_symm u1 u2 c).symm), hf]
        rfl
  · intro u st0 nid
    unfold getOrCreateDirectChat
    simp

/-- Claim C6 witness: concrete creation then retrieval in both orders. -/
theorem c6_direct_chat_unique_witness :
    (∃ c st1, getOrCreateDirectChat "u1" "u2" ⟨[], []⟩ "d1" = .ok (c, st1) ∧
      getOrCreateDirectChat "u1" "u2" st1 "d2" = .ok (c, st1) ∧
      getOrCreateDirectChat "u2" "u1" st1 "d2" = .ok (c, st1)) ∧
    (∀ u st0 nid, getOrCreateDirectChat u u st0 nid =
      .error "Cannot create chat with yourself") :=
  c6_direct_chat_unique "u1" "u2" "d1" "d2" ⟨[], []⟩ (by decide)

/-- A two-instance deployment for exercising the send-message path: the
sender's socket `s1` lives on instance 0; user `u2`'s socket `s2` lives on
instance 1 and has joined room `chat:c1`. -/
def sysC : Sys :=
  ⟨[⟨[⟨"s1", some "u1", ["user:u1"]⟩]⟩,
    ⟨[⟨"s2", some "u2", ["user:u2", "chat:c1"]⟩]⟩]⟩

/-- A direct chat between `u1` and `u2` with no messages yet. -/
def cstC : ChatSt := ⟨[⟨"c1", "direct", none, ["u1", "u2"], none⟩], []⟩

/-- Claim C1 counterexample: a fully successful `send_message` (sender
authenticated, content non-empty, chat valid, sender a participant,
persistence succeeds) on instance 0, while a client joined to room
`chat:c1` is connected to instance 1.  The handler acknowledges success but
emits nothing at all — in particular nothing on instance 1 — because it
broadcasts via `getIO().to(room).emit` (local, no adapter) instead of
publishing on the `socket:room` pub/sub channel.  Had it published on the
backplane, `pubSubRoomEmits` shows the emit to `s2` that every instance's
subscriber would have produced. -/
theorem c1_counterexample :
    (handleSendMessage sysC 0 ⟨"s1", some "u1", ["user:u1"]⟩ "c1" "hi" "m1" 7 cstC).1
      = SendAck.ok ⟨"m1", "c1", "u1", "hi", ["u1"], 7⟩ ∧
    (handleSendMessage sysC 0 ⟨"s1", some "u1", ["user:u1"]⟩ "c1" "hi" "m1" 7 cstC).2.2 = [] ∧
    pubSubRoomEmits sysC "chat:c1" "new_message" ⟨"m1", "c1", "u1", "hi", ["u1"], 7⟩
      = [⟨1, "s2", "new_message", ⟨"m1", "c1", "u1", "hi", ["u1"], 7⟩⟩] := by
  refine ⟨?_, ?_, ?_⟩ <;> rfl

/-- Claim C1 (amended): for every successful `send_message` event, the
created message is emitted as `new_message` only on the instance that
handles the sender's socket: the handler performs a direct local
`io.to(room).emit`, reaching exactly the local members of room
`chat:<chatId>` on that instance, and does not publish the message on the
pub/sub backplane — so a client joined to the room on a different instance
receives nothing from this handler. -/
theorem c1_send_message_local_only (sys : Sys) (i : Nat) (sock : SockConn)
    (uid chatId content newId : String) (now : Nat) (cst : ChatSt)
    (m : MsgRec) (cst1 : ChatSt)
    (hauth : sock.userId = some uid)
    (hchat : chatId ≠ "")
    (hcont : (strTrim content).data.length ≠ 0)
    (hsend : sendMessage uid chatId content newId now cst = .ok (m, cst1)) :
    handleSendMessage sys i sock chatId content newId now cst =
      (SendAck.ok m, cst1, localRoomEmits sys i ("chat:" ++ chatId) "new_message" m) ∧
    (∀ e ∈ (handleSendMessage sys i sock chatId content newId now cst).2.2,
      e.instIdx = i ∧ e.event = "new_message" ∧ e.payload = m) ∧
    (∀ inst, sys.instances[i]? = some inst →
      ∀ s ∈ inst.sockets, s.rooms.contains ("chat:" ++ chatId) = true →
        (⟨i, s.sid, "new_message", m⟩ : Emit) ∈
          (handleSendMessage sys i sock chatId content newId now cst).2.2) := by
  have hc1 : (chatId == "") = false := by simpa using hchat
  have hc2 : (content == "") = false := by
    cases hc : content == ""
    · rfl
    · exfalso
      apply hcont
      have : content = "" := by simpa using hc
      rw [this]
      rfl
  have hc3 : ((strTrim content).data.length == 0) = false := by simpa using hcont
  have hrun : handleSendMessage sys i sock chatId content newId now cst =
      (SendAck.ok m, cst1, localRoomEmits sys i ("chat:" ++ chatId) "new_message" m) := by
    unfold handleSendMessage
    rw [hauth]
    simp only [hc1, hc2, hc3, Bool.or_self, Bool.or_false, Bool.false_or, if_false,
      Bool.false_eq_true, hsend]
  refine ⟨hrun, ?_, ?_⟩
  · intro e he
    rw [hrun] at he
    unfold localRoomEmits at he
    cases hi : sys.instances[i]? with
    | none => rw [hi] at he; simp at he
    | some inst =>
      rw [hi] at he
      obtain ⟨s, _, rfl⟩ := List.mem_map.mp he
      exact ⟨rfl, rfl, rfl⟩
  · intro inst hi s hs hroom
    rw [hrun]
    unfold localRoomEmits
    rw [hi]
    exact List.mem_map.mpr ⟨s, List.mem_filter.mpr ⟨hs, hroom⟩, rfl⟩

/-- Claim C1 witness for the amended claim: the concrete two-instance run
of the counterexample scenario, seen through the amended statement. -/
theorem c1_send_message_local_only_witness :
    handleSendMessage sysC 0 ⟨"s1", some "u1", ["user:u1"]⟩ "c1" "hi" "m1" 7 cstC =
      (SendAck.ok ⟨"m1", "c1", "u1", "hi", ["u1"], 7⟩,
        ⟨[⟨"c1", "direct", none, ["u1", "u2"], some "m1"⟩],
          [⟨"m1", "c1", "u1", "hi", ["u1"], 7⟩]⟩,
        localRoomEmits sysC 0 ("chat:" ++ "c1") "new_message"
          ⟨"m1", "c1", "u1", "hi", ["u1"], 7⟩) :=
  (c1_send_message_local_only sysC 0 ⟨"s1", some "u1", ["user:u1"]⟩ "u1" "c1" "hi" "m1" 7 cstC
    ⟨"m1", "c1", "u1", "hi", ["u1"], 7⟩
    ⟨[⟨"c1", "direct", none, ["u1", "u2"], some "m1"⟩], [⟨"m1", "c1", "u1", "hi", ["u1"], 7⟩]⟩
    rfl (by decide) (by decide) rfl).1

/-- A character list is an initial segment of itself extended. -/
theorem listStarts_append (p t : List Char) : listStarts p (p ++ t) = true := by
  induction p with
  | nil => rfl
  | cons a as ih => simp [listStarts, ih]

/-- String append acts as list append on the character data. -/
theorem strData_append (a b : String) : (a ++ b).data = a.data ++ b.data := by
  cases a
  cases b
  rfl

/-- A string is a prefix of itself followed by anything. -/
theorem strStarts_self_append (a b : String) : strStarts a (a ++ b) = true := by
  unfold strStarts
  rw [strData_append]
  exact listStarts_append a.data b.data

/-- `matchPat` on a literal-plus-star pattern is a prefix test. -/
theorem matchPat_star (pre k : String) :
    matchPat (pre ++ "*") k = listStarts pre.data k.data := by
  unfold matchPat
  rw [strData_append]
  show (if ((pre.data ++ ['*']).getLast? == some '*') = true then
    listStarts (pre.data ++ ['*']).dropLast k.data else pre ++ "*" == k) = _
  rw [List.getLast?_concat, List.dropLast_concat]
  rfl

/-- The joined key list starting with `s` yields a key with prefix `s`. -/
theorem joinColon_starts (s : String) (parts : List String) :
    strStarts s (joinColon (s :: parts)) = true := by
  cases parts with
  | nil =>
    show strStarts s s = true
    unfold strStarts
    have := listStarts_append s.data []
    rwa [List.append_nil] at this
  | cons p rest =>
    show strStarts s (s ++ ":" ++ joinColon (p :: rest)) = true
    unfold strStarts
    rw [strData_append, strData_append, List.append_assoc]
    exact listStarts_append s.data _

/-- Post-list cache keys always carry the `post:list` prefix. -/
theorem postListKey_starts (f : PostFilters) (page limit : Nat) :
    strStarts "post:list" (cacheKeyPostList f page limit) = true := by
  unfold cacheKeyPostList
  exact joinColon_starts "post:list" _

/-- Search cache keys always carry the `search` prefix. -/
theorem searchKey_starts (q : String) (f : PostFilters) (sb : SearchSort) (page : Nat) :
    strStarts "search" (cacheKeySearch q f sb page) = true := by
  unfold cacheKeySearch
  exact joinColon_starts "search" _

/-- After a (healthy-backend) pattern invalidation no matching key is left. -/
theorem invalidatePattern_clears {α : Type} (c : CacheB α) (pat : String)
    (hf : c.fail = false) :
    ∀ e ∈ (invalidatePattern c pat).entries, matchPat pat e.key = false := by
  unfold invalidatePattern
  rw [hf]
  intro e he
  simp only [Bool.false_eq_true, if_false] at he
  by_cases hlen : ((c.entries.filter (fun e => matchPat pat e.key)).map (fun e => e.key)).length > 0
  · rw [if_pos hlen] at he
    simpa using (List.mem_filter.mp he).2
  · rw [if_neg hlen] at he
    simp only [List.length_map, Nat.pos_iff_ne_zero, ne_eq, not_not,
      List.length_eq_zero] at hlen
    have := List.filter_eq_nil_iff.mp hlen e he
    simpa using this

/-- Pattern invalidation only removes entries. -/
theorem invalidatePattern_subset {α : Type} (c : CacheB α) (pat : String) :
    ∀ e ∈ (invalidatePattern c pat).entries, e ∈ c.entries := by
  unfold invalidatePattern
  intro e he
  cases hf : c.fail
  · rw [hf] at he
    simp only [Bool.false_eq_true, if_false] at he
    by_cases hlen : ((c.entries.filter (fun e => matchPat pat e.key)).map (fun e => e.key)).length > 0
    · rw [if_pos hlen] at he
      exact (List.mem_filter.mp he).1
    · rwa [if_neg hlen] at he
  · rwa [hf] at he

/-- Pattern invalidation preserves the failure flag. -/
theorem invalidatePattern_fail {α : Type} (c : CacheB α) (pat : String) :
    (invalidatePattern c pat).fail = c.fail := by
  unfold invalidatePattern
  cases hf : c.fail
  · simp only [Bool.false_eq_true, if_false]
    by_cases hlen : ((c.entries.filter (fun e => matchPat pat e.key)).map (fun e => e.key)).length > 0
    · rw [if_pos hlen]
    · rw [if_neg hlen]
      exact hf
  · exact hf

/-- A (healthy-backend) key delete leaves no entry under that key. -/
theorem cacheDelete_clears {α : Type} (c : CacheB α) (k : String) (hf : c.fail = false) :
    ∀ e ∈ (cacheDelete c k).entries, (e.key == k) = false := by
  unfold cacheDelete clientDel
  rw [hf]
  intro e he
  simp only [Bool.false_eq_true, if_false] at he
  simpa using (List.mem_filter.mp he).2

/-- Key deletion only removes entries. -/
theorem cacheDelete_subset {α : Type} (c : CacheB α) (k : String) :
    ∀ e ∈ (cacheDelete c k).entries, e ∈ c.entries := by
  unfold cacheDelete clientDel
  intro e he
  cases hf : c.fail
  · rw [hf] at he
    simp only [Bool.false_eq_true, if_false] at he
    exact (List.mem_filter.mp he).1
  · rwa [hf] at he

/-- Key deletion preserves the failure flag. -/
theorem cacheDelete_fail {α : Type} (c : CacheB α) (k : String) :
    (cacheDelete c k).fail = c.fail := by
  unfold cacheDelete clientDel
  cases hf : c.fail <;> simp [hf]

/-- A key absent from the entries makes the raw lookup miss. -/
theorem lookupCache_none {α : Type} (c : CacheB α) (k : String)
    (h : ∀ e ∈ c.entries, (e.key == k) = false) : lookupCache c k = none := by
  unfold lookupCache
  rw [List.find?_eq_none.mpr (by intro e he; simp [h e he])]

/-- When no entry key carries the prefix of a prefixed lookup key, the
typed paginated cache read misses (for any backend health). -/
theorem getCachedPaged_none_of_nokey (c : CacheB CachedVal) (k : String)
    (h : c.fail = false → ∀ e ∈ c.entries, (e.key == k) = false) :
    getCachedPaged c k = none := by
  unfold getCachedPaged cacheGet clientGet
  cases hf : c.fail
  · rw [lookupCache_none c k (h hf)]
    rfl
  · rfl

/-- `invalidatePostCaches` clears the list/search prefixes, the specific
post key when given, and keeps the backend healthy. -/
theorem invalidatePostCaches_spec (c : CacheB CachedVal) (pid? : Option String)
    (hf : c.fail = false) :
    (∀ e ∈ (invalidatePostCaches c pid?).entries,
      strStarts "post:list" e.key = false ∧ strStarts "search" e.key = false) ∧
    (∀ pid, pid? = some pid →
      ∀ e ∈ (invalidatePostCaches c pid?).entries, (e.key == cacheKeyPost pid) = false) ∧
    (invalidatePostCaches c pid?).fail = false := by
  have hf1 : (match pid? with
      | some pid => cacheDelete c (cacheKeyPost pid)
      | none => c).fail = false := by
    cases pid? with
    | some pid => rw [cacheDelete_fail]; exact hf
    | none => exact hf
  have hf2 : (invalidatePattern (match pid? with
      | some pid => cacheDelete c (cacheKeyPost pid)
      | none => c) postListPattern).fail = false := by
    rw [invalidatePattern_fail]; exact hf1
  refine ⟨?_, ?_, ?_⟩
  · intro e he
    constructor
    · have he2 := invalidatePattern_subset _ searchPattern e he
      have hcl := invalidatePattern_clears _ postListPattern hf1 e he2
      unfold postListPattern at hcl
      rw [matchPat_star] at hcl
      exact hcl
    · have hcl := invalidatePattern_clears _ searchPattern hf2 e he
      unfold searchPattern at hcl
      rw [matchPat_star] at hcl
      exact hcl
  · intro pid hpid e he
    have he2 := invalidatePattern_subset _ searchPattern e he
    have he3 := invalidatePattern_subset _ postListPattern e he2
    rw [hpid] at he3
    exact cacheDelete_clears c (cacheKeyPost pid) hf e he3
  · unfold invalidatePostCaches
    rw [invalidatePattern_fail]
    exact hf2

/-- Reads recompute from the store whenever no list/search key survives. -/
theorem reads_fresh (st : PState)
    (h : ∀ e ∈ st.cache.entries,
      strStarts "post:list" e.key = false ∧ strStarts "search" e.key = false) :
    (∀ f page limit, (listPosts st f page limit).1 = computePostList st.posts f page limit) ∧
    (∀ q f sb page limit,
      (searchPosts st q f sb page limit).1 = computeSearch st.posts q f sb page limit) := by
  constructor
  · intro f page limit
    have hmiss : getCachedPaged st.cache (cacheKeyPostList f page limit) = none := by
      apply getCachedPaged_none_of_nokey
      intro _ e he
      cases hk : e.key == cacheKeyPostList f page limit
      · rfl
      · exfalso
        have : e.key = cacheKeyPostList f page limit := by simpa using hk
        have hpre := postListKey_starts f page limit
        rw [← this] at hpre
        rw [(h e he).1] at hpre
        exact Bool.false_ne_true hpre
    unfold listPosts
    simp only [hmiss]
  · intro q f sb page limit
    have hmiss : getCachedPaged st.cache (cacheKeySearch q f sb page) = none := by
      apply getCachedPaged_none_of_nokey
      intro _ e he
      cases hk : e.key == cacheKeySearch q f sb page
      · rfl
      · exfalso
        have : e.key = cacheKeySearch q f sb page := by simpa using hk
        have hpre := searchKey_starts q f sb page
        rw [← this] at hpre
        rw [(h e he).2] at hpre
        exact Bool.false_ne_true hpre
    unfold searchPosts
    simp only [hmiss]

/-- Invalidating a pattern that matches nothing succeeds as a no-op. -/
theorem invalidatePattern_noop {α : Type} (c : CacheB α) (pat : String)
    (h : ∀ e ∈ c.entries, matchPat pat e.key = false) :
    invalidatePattern c pat = c := by
  unfold invalidatePattern
  cases hf : c.fail
  · simp only [Bool.false_eq_true, if_false]
    have hnil : c.entries.filter (fun e => matchPat pat e.key) = [] :=
      List.filter_eq_nil_iff.mpr (by intro e he; simp [h e he])
    rw [hnil]
    rfl
  · rfl

/-- The claim-C4 conclusions that follow from the cache having just been
run through `invalidatePostCaches`. -/
theorem c4_glue (st' : PState) (c0 : CacheB CachedVal) (pid? : Option String)
    (hc : st'.cache = invalidatePostCaches c0 pid?) (hf : c0.fail = false) :
    (∀ e ∈ st'.cache.entries,
      strStarts "post:list" e.key = false ∧ strStarts "search" e.key = false) ∧
    (∀ pid, pid? = some pid → lookupCache st'.cache (cacheKeyPost pid) = none) ∧
    (∀ f page limit, (listPosts st' f page limit).1 = computePostList st'.posts f page limit) ∧
    (∀ q f sb page limit,
      (searchPosts st' q f sb page limit).1 = computeSearch st'.posts q f sb page limit) := by
  obtain ⟨h1, h2, _⟩ := invalidatePostCaches_spec c0 pid? hf
  have hA : ∀ e ∈ st'.cache.entries,
      strStarts "post:list" e.key = false ∧ strStarts "search" e.key = false := by
    rw [hc]
    exact h1
  have hr := reads_fresh st' hA
  refine ⟨hA, ?_, hr.1, hr.2⟩
  intro pid hpid
  apply lookupCache_none
  intro e he
  rw [hc] at he
  exact h2 pid hpid e he

/-- A successful `likePost` either changed nothing at all (already liked)
or ran the cache invalidation. -/
theorem likePost_cases (st st' : PState) (pid uid : String)
    (h : likePost st pid uid = .ok st') :
    st' = st ∨ st'.cache = invalidatePostCaches st.cache (some pid) := by
  unfold likePost at h
  split at h
  · exact absurd h (by simp)
  · split at h
    · exact absurd h (by simp)
    · split at h
      · exact Or.inl (Except.ok.inj h).symm
      · right
        rw [← Except.ok.inj h]

/-- A successful `unlikePost` always ran the cache invalidation. -/
theorem unlikePost_cache (st st' : PState) (pid uid : String)
    (h : unlikePost st pid uid = .ok st') :
    st'.cache = invalidatePostCaches st.cache (some pid) := by
  unfold unlikePost at h
  split at h
  · exact absurd h (by simp)
  · split at h
    · exact absurd h (by simp)
    · rw [← Except.ok.inj h]

/-- A successful `bookmarkPost` either changed nothing at all or ran the
cache invalidation. -/
theorem bookmarkPost_cases (st st' : PState) (pid uid : String)
    (h : bookmarkPost st pid uid = .ok st') :
    st' = st ∨ st'.cache = invalidatePostCaches st.cache (some pid) := by
  unfold bookmarkPost at h
  split at h
  · exact absurd h (by simp)
  · split at h
    · exact absurd h (by simp)
    · split at h
      · exact Or.inl (Except.ok.inj h).symm
      · right
        rw [← Except.ok.inj h]

/-- A successful `unbookmarkPost` always ran the cache invalidation. -/
theorem unbookmarkPost_cache (st st' : PState) (pid uid : String)
    (h : unbookmarkPost st pid uid = .ok st') :
    st'.cache = invalidatePostCaches st.cache (some pid) := by
  unfold unbookmarkPost at h
  split at h
  · exact absurd h (by simp)
  · split at h
    · exact absurd h (by simp)
    · rw [← Except.ok.inj h]

/-- A successful `addComment` always ran the cache invalidation. -/
theorem addComment_cache (st : PState) (pid uid content : String) (parent : Option String)
    (newId : String) (now : Nat) (cRec : CommentRec) (st1 : PState)
    (h : addComment st pid uid content parent newId now = .ok (cRec, st1)) :
    st1.cache = invalidatePostCaches st.cache (some pid) := by
  unfold addComment at h
  split at h
  · exact absurd h (by simp)
  · split at h
    · exact absurd h (by simp)
    · split at h
      · split at h
        · exact absurd h (by simp)
        · split at h
          · exact absurd h (by simp)
          · split at h
            · exact absurd h (by simp)
            · have heq := Except.ok.inj h
              injection heq with h1 h2
              rw [← h2]
      · have heq := Except.ok.inj h
        injection heq with h1 h2
        rw [← h2]

/-- Claim C4: every content write with a cached read path (create post,
like/unlike, bookmark/unbookmark, add comment) that succeeds and actually
changed the store leaves the cache with no `post:list*` or `search*` key
and no key for the touched post (when a postId exists), so an immediately
following list or search read recomputes its result from the store instead
of returning the pre-write cached value; and pattern invalidation treats
"nothing matched" as success (a pure no-op). -/
theorem c4_write_invalidates (op : WriteOp) (st st' : PState)
    (hok : applyWrite op st = .ok st')
    (hf : st.cache.fail = false)
    (hch : st'.posts ≠ st.posts ∨ st'.comments ≠ st.comments) :
    (∀ e ∈ st'.cache.entries,
      strStarts "post:list" e.key = false ∧ strStarts "search" e.key = false) ∧
    (∀ pid, writePostId op = some pid → lookupCache st'.cache (cacheKeyPost pid) = none) ∧
    (∀ f page limit, (listPosts st' f page limit).1 = computePostList st'.posts f page limit) ∧
    (∀ q f sb page limit,
      (searchPosts st' q f sb page limit).1 = computeSearch st'.posts q f sb page limit) ∧
    (∀ (c : CacheB CachedVal) pat, (∀ e ∈ c.entries, matchPat pat e.key = false) →
      invalidatePattern c pat = c) := by
  have hkill : st' = st → False := by
    intro he
    rcases hch with h | h
    · exact h (by rw [he])
    · exact h (by rw [he])
  cases op with
  | create userId d newId now =>
    unfold applyWrite createPost at hok
    have hc : st'.cache = invalidatePostCaches st.cache none := by
      rw [← Except.ok.inj hok]
    obtain ⟨h1, h2, h3, h4⟩ := c4_glue st' st.cache none hc hf
    exact ⟨h1, h2, h3, h4, fun c pat h => invalidatePattern_noop c pat h⟩
  | like pid uid =>
    rcases likePost_cases st st' pid uid hok with he | hc
    · exact absurd he hkill
    · obtain ⟨h1, h2, h3, h4⟩ := c4_glue st' st.cache (some pid) hc hf
      exact ⟨h1, h2, h3, h4, fun c pat h => invalidatePattern_noop c pat h⟩
  | unlike pid uid =>
    have hc := unlikePost_cache st st' pid uid hok
    obtain ⟨h1, h2, h3, h4⟩ := c4_glue st' st.cache (some pid) hc hf
    exact ⟨h1, h2, h3, h4, fun c pat h => invalidatePattern_noop c pat h⟩
  | bookmark pid uid =>
    rcases bookmarkPost_cases st st' pid uid hok with he | hc
    · exact absurd he hkill
    · obtain ⟨h1, h2, h3, h4⟩ := c4_glue st' st.cache (some pid) hc hf
      exact ⟨h1, h2, h3, h4, fun c pat h => invalidatePattern_noop c pat h⟩
  | unbookmark pid uid =>
    have hc := unbookmarkPost_cache st st' pid uid hok
    obtain ⟨h1, h2, h3, h4⟩ := c4_glue st' st.cache (some pid) hc hf
    exact ⟨h1, h2, h3, h4, fun c pat h => invalidatePattern_noop c pat h⟩
  | comment pid uid content parent newId now =>
    simp only [applyWrite] at hok
    cases hadd : addComment st pid uid content parent newId now with
    | error e =>
      rw [hadd] at hok
      exact absurd hok (by simp)
    | ok x =>
      obtain ⟨cR, st1⟩ := x
      rw [hadd] at hok
      have hx : st1 = st' := Except.ok.inj hok
      have hc := addComment_cache st pid uid content parent newId now cR st1 hadd
      rw [hx] at hc
      obtain ⟨h1, h2, h3, h4⟩ := c4_glue st' st.cache (some pid) hc hf
      exact ⟨h1, h2, h3, h4, fun c pat h => invalidatePattern_noop c pat h⟩

/-- Claim C4 witness: a concrete like on a store whose cache holds a stale
post-list entry, a stale search entry and the post's own entry; after the
write all three are gone and the follow-up list read recomputes. -/
theorem c4_write_invalidates_witness :
    applyWrite (.like "507f1f77bcf86cd799439011" "u1")
      ⟨[⟨"507f1f77bcf86cd799439011", "a1", "t", "b", [], "published", [], [], 0, 0, 1⟩], [],
        ⟨false, [⟨"post:list:page:1:limit:10", .paged ⟨[], 0, 1, 0, false⟩, some 120⟩,
          ⟨"search:q:x:sort:date:page:1", .paged ⟨[], 0, 1, 0, false⟩, some 60⟩,
          ⟨"post:507f1f77bcf86cd799439011",
            .post ⟨"507f1f77bcf86cd799439011", "a1", "t", "b", [], "published",
              [], [], 0, 0, 1⟩, some 120⟩]⟩⟩ =
      .ok ⟨[⟨"507f1f77bcf86cd799439011", "a1", "t", "b", [], "published",
          ["u1"], [], 0, 0, 1⟩], [], ⟨false, []⟩⟩ ∧
    (∀ pid, writePostId (.like "507f1f77bcf86cd799439011" "u1") = some pid →
      lookupCache (⟨false, []⟩ : CacheB CachedVal) (cacheKeyPost pid) = none) ∧
    (∀ f page limit,
      (listPosts ⟨[⟨"507f1f77bcf86cd799439011", "a1", "t", "b", [], "published",
          ["u1"], [], 0, 0, 1⟩], [], ⟨false, []⟩⟩ f page limit).1 =
        computePostList [⟨"507f1f77bcf86cd799439011", "a1", "t", "b", [], "published",
          ["u1"], [], 0, 0, 1⟩] f page limit) := by
  have h := c4_write_invalidates (.like "507f1f77bcf86cd799439011" "u1")
    ⟨[⟨"507f1f77bcf86cd799439011", "a1", "t", "b", [], "published", [], [], 0, 0, 1⟩], [],
      ⟨false, [⟨"post:list:page:1:limit:10", .paged ⟨[], 0, 1, 0, false⟩, some 120⟩,
        ⟨"search:q:x:sort:date:page:1", .paged ⟨[], 0, 1, 0, false⟩, some 60⟩,
        ⟨"post:507f1f77bcf86cd799439011",
          .post ⟨"507f1f77bcf86cd799439011", "a1", "t", "b", [], "published",
            [], [], 0, 0, 1⟩, some 120⟩]⟩⟩
    ⟨[⟨"507f1f77bcf86cd799439011", "a1", "t", "b", [], "published",
        ["u1"], [], 0, 0, 1⟩], [], ⟨false, []⟩⟩
    rfl rfl (Or.inl (by decide))
  exact ⟨rfl, h.2.1, h.2.2.1⟩

end DevConnect
